import Mathlib

/-!
Verification of the bucket/file consistency model of the Simple Storage
Service (`app.py`).  Python strings are embedded as lists of Unicode code
points (`PyStr := List Nat`); the development models the ASCII fragment of
Python's string methods (`strip`, `lower`, `isalnum`), which is the fragment
exercised by the service's validation rules.  The filesystem under the
storage root and the relational bucket table are embedded as explicit state
(`S3State`).
-/

namespace SimpleStorage

/-- Python strings, embedded as lists of code points. -/
abbrev PyStr := List Nat

/-- Embed a Lean string literal as a `PyStr` (list of code points). -/
def pyStr (s : String) : PyStr := s.data.map Char.toNat

/-- ASCII whitespace recognised by Python's `str.strip()` / `str.split()`. -/
def isSpaceC (c : Nat) : Bool := c == 32 || c == 9 || c == 10 || c == 13 || c == 11 || c == 12

/-- ASCII uppercase letter (`A`-`Z`). -/
def isUpperC (c : Nat) : Bool := 65 ≤ c && c ≤ 90

/-- Python `str.lower()` on a single code point (ASCII fragment). -/
def toLowerC (c : Nat) : Nat := if isUpperC c then c + 32 else c

/-- ASCII alphanumeric code point: the ASCII fragment of Python's `str.isalnum` test. -/
def isAlnumC (c : Nat) : Bool := (48 ≤ c && c ≤ 57) || (65 ≤ c && c ≤ 90) || (97 ≤ c && c ≤ 122)

/-- Python `str.isalnum()`: all characters alphanumeric AND at least one character.
The empty string is NOT alphanumeric in Python. -/
def pyIsAlnum (s : PyStr) : Bool := !s.isEmpty && s.all isAlnumC

/-- Python `str.lower()` (ASCII fragment). -/
def pyLower (s : PyStr) : PyStr := s.map toLowerC

/-- Python `str.strip()` (ASCII fragment): drop whitespace from both ends. -/
def pyStrip (s : PyStr) : PyStr :=
  ((s.dropWhile isSpaceC).reverse.dropWhile isSpaceC).reverse

/-- `is_valid_bucket_name` from `app.py`: length ≥ 3 (and non-empty), length ≤ 50,
and after removing every `-` (45) and `_` (95) the remainder must satisfy
Python's `isalnum` (which is `False` on the empty string). -/
def is_valid_bucket_name (name : PyStr) : Bool × String :=
  if name.isEmpty || name.length < 3 then
    (false, "Name must be at least 3 characters")
  else if 50 < name.length then
    (false, "Name too long (max 50 characters)")
  else if !pyIsAlnum (name.filter (fun c => !(c == 45) && !(c == 95))) then
    (false, "Only letters, numbers, dash and underscore allowed")
  else
    (true, "Valid name")

/-- The `ALLOWED_EXTENSIONS` set from `app.py`. -/
def ALLOWED_EXTENSIONS : List PyStr :=
  [pyStr "txt", pyStr "pdf", pyStr "png", pyStr "jpg", pyStr "jpeg",
   pyStr "gif", pyStr "bmp", pyStr "svg", pyStr "webp"]

/-- Split a string at its LAST `.` (46), returning the parts before and after,
or `none` when no `.` occurs.  This is Python's `s.rsplit('.', 1)` restricted
to strings known to contain a dot, together with the `'.' in s` test. -/
def rsplitDot : PyStr → Option (PyStr × PyStr)
  | [] => none
  | c :: cs =>
    match rsplitDot cs with
    | some (a, b) => some (c :: a, b)
    | none => if c == 46 then some ([], cs) else none

/-- `allowed_file` from `app.py`: the name contains a `.` and the (lowercased)
text after the last `.` is an allowed extension. -/
def allowed_file (filename : PyStr) : Bool :=
  match rsplitDot filename with
  | some (_, ext) => ALLOWED_EXTENSIONS.contains (pyLower ext)
  | none => false

/-- Python `str.split()` with no separator: split on runs of whitespace,
discarding empty pieces.  `acc` carries the current word reversed. -/
def splitWsAux : PyStr → PyStr → List PyStr
  | [], acc => if acc.isEmpty then [] else [acc.reverse]
  | c :: cs, acc =>
    if isSpaceC c then
      if acc.isEmpty then splitWsAux cs [] else acc.reverse :: splitWsAux cs []
    else splitWsAux cs (c :: acc)

/-- Characters kept by werkzeug's `secure_filename` strip regex `[A-Za-z0-9_.-]`. -/
def secureKeepC (c : Nat) : Bool := isAlnumC c || c == 95 || c == 46 || c == 45

/-- werkzeug's `secure_filename` (ASCII fragment): replace the path separator
`/` (47) by a space, split on whitespace and re-join with `_` (95), drop every
character outside `[A-Za-z0-9_.-]`, and strip leading/trailing `.` and `_`. -/
def secure_filename (s : PyStr) : PyStr :=
  let s1 := s.map (fun c => if c == 47 then 32 else c)
  let joined := List.intercalate [95] (splitWsAux s1 [])
  let kept := joined.filter secureKeepC
  ((kept.dropWhile (fun c => c == 46 || c == 95)).reverse.dropWhile
    (fun c => c == 46 || c == 95)).reverse

/-- Round `a / d` (with `d > 0`) to the nearest integer, ties to even: the
rounding Python applies when formatting an exactly-representable float with
`%.1f`. -/
def divRoundHalfEven (a d : Nat) : Nat :=
  let q := a / d
  let r := a % d
  if 2 * r < d then q else if d < 2 * r then q + 1 else if q % 2 = 0 then q else q + 1

/-- Render the non-negative fraction `n / d` with exactly one decimal place,
as Python's format spec `.1f` does for exactly-representable float values. -/
def oneDecimalRepr (n d : Nat) : String :=
  let t := divRoundHalfEven (10 * n) d
  Nat.repr (t / 10) ++ "." ++ Nat.repr (t % 10)

/-- The `size_names` list of `format_file_size`. -/
def sizeNames : List String := ["B", "KB", "MB", "GB"]

/-- The `while size_bytes >= 1024 and i < len(size_names) - 1` loop of
`format_file_size`.  After `i` iterations the float variable holds exactly
`size_bytes / 1024 ^ i` (division of a value below `2^53` by `1024` is exact
in binary floating point), so the loop is embedded by tracking `i` while the
current value is `size_bytes / 1024 ^ i`; the continue condition
`size_bytes / 1024 ^ i >= 1024` is exactly `1024 ^ (i+1) ≤ size_bytes`.  The
body runs at most three times because of the `i < 3` guard, so fuel 3
suffices; the fuel argument only makes the recursion structural, both loop
conditions are kept. -/
def fmtLoop : Nat → Nat → Nat → Nat
  | 0, _, i => i
  | fuel + 1, size_bytes, i =>
    if 1024 ^ (i + 1) ≤ size_bytes ∧ i < 3 then fmtLoop fuel size_bytes (i + 1) else i

/-- `format_file_size` from `app.py`: `"0 B"` for zero, otherwise divide by
`1024.0` while at least `1024` remains (at most three times) and print the
resulting value with one decimal place and the matching unit. -/
def format_file_size (size_bytes : Nat) : String :=
  if size_bytes = 0 then "0 B"
  else
    let i := fmtLoop 3 size_bytes 0
    oneDecimalRepr size_bytes (1024 ^ i) ++ " " ++ sizeNames.getD i ""

/-- The collision rename of `upload_file`: split at the last dot; when an
extension is present the timestamp goes before it (`name_ts.ext`), otherwise
it is appended (`name_ts`).  `95` is `_`, `46` is `.`. -/
def renameWithTimestamp (fn ts : PyStr) : PyStr :=
  match rsplitDot fn with
  | some (name, ext) =>
    if !ext.isEmpty then name ++ 95 :: ts ++ 46 :: ext else name ++ 95 :: ts
  | none => fn ++ 95 :: ts

/-- Look up a key in an association list (first match wins). -/
def lookup? {α : Type} : List (PyStr × α) → PyStr → Option α
  | [], _ => none
  | (k, v) :: rest, key => if k = key then some v else lookup? rest key

/-- Insert or replace the value stored under a key in an association list;
models both `file.save` (overwrite an existing path, create a new one
otherwise) and directory-map updates. -/
def upsert {α : Type} : List (PyStr × α) → PyStr → α → List (PyStr × α)
  | [], key, v => [(key, v)]
  | (k, w) :: rest, key, v =>
    if k = key then (k, v) :: rest else (k, w) :: upsert rest key v

/-- Remove the entry stored under a key from an association list. -/
def eraseKey {α : Type} : List (PyStr × α) → PyStr → List (PyStr × α)
  | [], _ => []
  | (k, w) :: rest, key => if k = key then rest else (k, w) :: eraseKey rest key

/-- One bucket directory on disk: its regular files (name with content bytes)
and the names of its immediate subdirectories.  `iterdir` enumerates both;
`is_file` is true only for `files`. -/
structure BucketDir where
  files : List (PyStr × PyStr)
  subdirs : List PyStr
deriving DecidableEq

/-- Whole-service state: the bucket records of the relational table and the
directory tree under the storage root (one entry per bucket directory). -/
structure S3State where
  records : List PyStr
  dirs : List (PyStr × BucketDir)
deriving DecidableEq

/-- `folder_path.mkdir(exist_ok=True)`: create the directory iff missing. -/
def mkdirIfMissing (dirs : List (PyStr × BucketDir)) (name : PyStr) : List (PyStr × BucketDir) :=
  if (lookup? dirs name).isSome then dirs else dirs ++ [(name, BucketDir.mk [] [])]

/-- Outcomes of `create_bucket`. -/
inductive CreateRes where
  | invalid (msg : String)
  | conflict
  | created (name : PyStr)
deriving DecidableEq

/-- HTTP status attached to each `create_bucket` outcome. -/
def createStatus : CreateRes → Nat
  | .invalid _ => 400
  | .conflict => 409
  | .created _ => 201

/-- True exactly on the `Invalid` outcome. -/
def CreateRes.isInvalid : CreateRes → Bool
  | .invalid _ => true
  | _ => false

/-- `create_bucket` from `app.py`: normalize the submitted name with
`strip().lower()`, validate it, reject a duplicate record with `Conflict`,
otherwise create the directory (idempotently) and insert the record. -/
def create_bucket (st : S3State) (raw : PyStr) : CreateRes × S3State :=
  let bucket_name := pyLower (pyStrip raw)
  let v := is_valid_bucket_name bucket_name
  if !v.1 then (.invalid v.2, st)
  else if st.records.contains bucket_name then (.conflict, st)
  else (.created bucket_name,
        S3State.mk (bucket_name :: st.records) (mkdirIfMissing st.dirs bucket_name))

/-- Outcomes of `get_bucket` (the parts of the response the claims concern:
existence, the folder-exists flag and the file count). -/
inductive GetRes where
  | notFound
  | ok (folder_exists : Bool) (file_count : Nat)
deriving DecidableEq

/-- `get_bucket` from `app.py`: look the requested name up with NO
normalization; report directory absence rather than failing. -/
def get_bucket (st : S3State) (bucket_name : PyStr) : GetRes :=
  if !st.records.contains bucket_name then .notFound
  else
    match lookup? st.dirs bucket_name with
    | none => .ok false 0
    | some d => .ok true d.files.length

/-- Outcomes of `delete_bucket`. -/
inductive DeleteRes where
  | notFound
  | nonEmpty (file_count : Nat)
  | ioError
  | ok
deriving DecidableEq

/-- HTTP status attached to each `delete_bucket` outcome. -/
def deleteStatus : DeleteRes → Nat
  | .notFound => 404
  | .nonEmpty _ => 400
  | .ioError => 500
  | .ok => 200

/-- `delete_bucket` from `app.py`: 404 when no record exists; with a directory
present, count only regular files (`iterdir` filtered by `is_file`) and refuse
with 400 when any exist; then `rmdir`, which raises (500, record kept) exactly
when the directory still has entries, i.e. here when a subdirectory remains;
finally delete the record (and an absent directory is silently skipped). -/
def delete_bucket (st : S3State) (bucket_name : PyStr) : DeleteRes × S3State :=
  if !st.records.contains bucket_name then (.notFound, st)
  else
    match lookup? st.dirs bucket_name with
    | some d =>
      if !d.files.isEmpty then (.nonEmpty d.files.length, st)
      else if !d.subdirs.isEmpty then (.ioError, st)
      else (.ok, S3State.mk (st.records.erase bucket_name) (eraseKey st.dirs bucket_name))
    | none => (.ok, S3State.mk (st.records.erase bucket_name) st.dirs)

/-- The derived metadata of `get_file_info` that the claims concern: the stored
name, the byte size, and the human-formatted size. -/
structure FileInfo where
  name : PyStr
  size : Nat
  size_formatted : String
deriving DecidableEq

/-- `get_file_info` on a freshly saved file: size is the byte length of the
saved content, `size_formatted` derives from it. -/
def get_file_info (name : PyStr) (content : PyStr) : FileInfo :=
  FileInfo.mk name content.length (format_file_size content.length)

/-- One incoming part of a multipart upload: the submitted filename, the
content bytes, and whether `file.save` raises for it (environment-injected
write failure). -/
structure IncomingFile where
  filename : PyStr
  content : PyStr
  saveFails : Bool
deriving DecidableEq

/-- Accumulator of the upload loop: the evolving bucket directory, the
`uploaded_files` metadata list and the per-file `errors` list. -/
structure UpAcc where
  dir : BucketDir
  uploaded : List FileInfo
  errors : List String
deriving DecidableEq

/-- The body of `upload_file`'s `for file in files` loop: skip empty names
silently; reject a disallowed extension with a per-file error; sanitize and
reject an empty sanitized name; rename on collision with an existing file;
save (recording a per-file error when the write fails).  The real error
messages embed the offending filename; the model keeps fixed message texts
since no claim inspects them. -/
def processOne (now : PyStr) (acc : UpAcc) (f : IncomingFile) : UpAcc :=
  if f.filename.isEmpty then acc
  else if !allowed_file f.filename then
    UpAcc.mk acc.dir acc.uploaded (acc.errors ++ ["File type not allowed"])
  else
    let fn := secure_filename f.filename
    if fn.isEmpty then UpAcc.mk acc.dir acc.uploaded (acc.errors ++ ["Invalid filename"])
    else
      let fn2 := if (lookup? acc.dir.files fn).isSome then renameWithTimestamp fn now else fn
      if f.saveFails then UpAcc.mk acc.dir acc.uploaded (acc.errors ++ ["Failed to save"])
      else
        UpAcc.mk (BucketDir.mk (upsert acc.dir.files fn2 f.content) acc.dir.subdirs)
          (acc.uploaded ++ [get_file_info fn2 f.content]) acc.errors

/-- Outcomes of `upload_file`.  `noneSelected` is the early 400 for an
empty/all-empty file list; `noFiles` is the request-level
`No files were uploaded successfully` failure. -/
inductive UploadRes where
  | notFound
  | noneSelected
  | noFiles (errors : List String)
  | ok (files : List FileInfo) (errors : List String)
deriving DecidableEq

/-- HTTP status attached to each `upload_file` outcome. -/
def uploadStatus : UploadRes → Nat
  | .notFound => 404
  | .noneSelected => 400
  | .noFiles _ => 400
  | .ok _ _ => 200

/-- The `success` flag of the upload response. -/
def uploadSuccess : UploadRes → Bool
  | .ok _ _ => true
  | _ => false

/-- `upload_file` from `app.py`: 404 when the bucket record is absent (no
normalization of the requested name); 400 when no file or only empty-named
files were submitted; otherwise `mkdir(exist_ok=True)` the bucket directory,
process each file in order, and fail the request (400) exactly when
`uploaded_files` stayed empty.  The timestamp used by collision renames is the
request's `now` value.  The mkdir plus the loop's saves are represented by
upserting the folded directory back into the tree: absent directory plus no
successful save yields exactly the freshly created empty directory. -/
def upload_file (st : S3State) (bucket_name : PyStr) (files : List IncomingFile)
    (now : PyStr) : UploadRes × S3State :=
  if !st.records.contains bucket_name then (.notFound, st)
  else if files.isEmpty || files.all (fun f => f.filename.isEmpty) then (.noneSelected, st)
  else
    let d0 := (lookup? st.dirs bucket_name).getD (BucketDir.mk [] [])
    let r := List.foldl (processOne now) (UpAcc.mk d0 [] []) files
    let st' := S3State.mk st.records (upsert st.dirs bucket_name r.dir)
    if !r.uploaded.isEmpty then (.ok r.uploaded r.errors, st')
    else (.noFiles r.errors, st')

/-- Per-file failure, as the specification enumerates it: empty submitted
name, disallowed or missing extension, empty sanitized name, or write error. -/
def fileFails (f : IncomingFile) : Bool :=
  f.filename.isEmpty || !allowed_file f.filename ||
    (secure_filename f.filename).isEmpty || f.saveFails

/-! ## Helper lemmas -/

theorem lookup?_upsert_self {α : Type} (l : List (PyStr × α)) (k : PyStr) (v : α) :
    lookup? (upsert l k v) k = some v := by
  induction l with
  | nil => simp [upsert, lookup?]
  | cons kw rest ih =>
    obtain ⟨k', w⟩ := kw
    by_cases h : k' = k
    · simp [upsert, lookup?, h]
    · simp [upsert, lookup?, h, ih]

theorem lookup?_upsert_ne {α : Type} (l : List (PyStr × α)) (k k' : PyStr) (v : α)
    (h : k' ≠ k) : lookup? (upsert l k v) k' = lookup? l k' := by
  induction l with
  | nil => simp [upsert, lookup?, Ne.symm h]
  | cons kw rest ih =>
    obtain ⟨k0, w⟩ := kw
    by_cases h0 : k0 = k
    · subst h0
      simp [upsert, lookup?, Ne.symm h]
    · simp [upsert, lookup?, h0, ih]

theorem lookup?_append_single {α : Type} (l : List (PyStr × α)) (k : PyStr) (v : α) :
    (lookup? (l ++ [(k, v)]) k).isSome = true := by
  induction l with
  | nil => simp [lookup?]
  | cons kw rest ih =>
    obtain ⟨k0, w⟩ := kw
    by_cases h0 : k0 = k <;> simp [lookup?, h0, ih]

theorem lookup?_mkdirIfMissing_isSome (dirs : List (PyStr × BucketDir)) (name : PyStr) :
    (lookup? (mkdirIfMissing dirs name) name).isSome = true := by
  unfold mkdirIfMissing
  by_cases h : (lookup? dirs name).isSome = true
  · simp [h]
  · simp only [Bool.not_eq_true] at h
    simp [h, lookup?_append_single]

theorem dropWhile_eq_self_of_all {α : Type} (p : α → Bool) (l : List α)
    (h : ∀ c ∈ l, p c = false) : l.dropWhile p = l := by
  cases l with
  | nil => rfl
  | cons a as => simp [List.dropWhile_cons, h a (by simp)]

theorem pyStrip_eq_self (s : PyStr) (h : ∀ c ∈ s, isSpaceC c = false) : pyStrip s = s := by
  unfold pyStrip
  rw [dropWhile_eq_self_of_all _ _ h]
  rw [dropWhile_eq_self_of_all _ _ (fun c hc => h c (by simpa using hc))]
  simp

/-- An ASCII alphanumeric code point is not whitespace, not `-`, not `_`. -/
theorem isAlnumC_props (c : Nat) (h : isAlnumC c = true) :
    isSpaceC c = false ∧ c ≠ 45 ∧ c ≠ 95 := by
  simp [isAlnumC, isSpaceC] at *
  omega

/-- `toLowerC` preserves the character classes of valid bucket names. -/
theorem toLowerC_classes (c : Nat) :
    (isAlnumC c = true → isAlnumC (toLowerC c) = true) ∧
      (c = 45 → toLowerC c = 45) ∧ (c = 95 → toLowerC c = 95) ∧
      isUpperC (toLowerC c) = false ∧ (isSpaceC c = false → isSpaceC (toLowerC c) = false) := by
  simp [isAlnumC, toLowerC, isUpperC, isSpaceC]
  constructor
  · intro h
    split <;> omega
  constructor
  · intro h; subst h; simp
  constructor
  · intro h; subst h; simp
  constructor
  · split <;> omega
  · intro h
    split <;> omega

/-- `is_valid_bucket_name` rejects every name that is too short, too long, or
contains a character outside letters/digits/`-`/`_`. -/
theorem is_valid_fst_false (n : PyStr)
    (h : n.length < 3 ∨ 50 < n.length ∨
      ∃ c ∈ n, isAlnumC c = false ∧ c ≠ 45 ∧ c ≠ 95) :
    (is_valid_bucket_name n).1 = false := by
  unfold is_valid_bucket_name
  split_ifs with h1 h2 h3
  · rfl
  · rfl
  · rfl
  · exfalso
    simp only [Bool.or_eq_true, decide_eq_true_eq, not_or, Bool.not_eq_true,
      List.isEmpty_iff] at h1 h2 h3
    rcases h with hlen | hlen | ⟨c, hc, hal, h45, h95⟩
    · exact absurd hlen h1.2
    · exact absurd hlen h2
    · simp [pyIsAlnum, List.all_eq_true] at h3
      rcases h3.2 c hc with hh | hh | hh
      · exact h45 hh
      · exact h95 hh
      · simp [hal] at hh

/-- `is_valid_bucket_name` accepts every name of length 3..50 whose characters
are letters/digits/`-`/`_` with at least one alphanumeric among them. -/
theorem is_valid_fst_true (n : PyStr) (h3 : 3 ≤ n.length) (h50 : n.length ≤ 50)
    (hchars : ∀ c ∈ n, isAlnumC c = true ∨ c = 45 ∨ c = 95)
    (halnum : ∃ c ∈ n, isAlnumC c = true) :
    is_valid_bucket_name n = (true, "Valid name") := by
  have hnil : n ≠ [] := by
    intro hn
    rw [hn] at h3
    simp at h3
  obtain ⟨c0, hc0, hal0⟩ := halnum
  have hmem : c0 ∈ n.filter (fun c => !(c == 45) && !(c == 95)) := by
    have := isAlnumC_props c0 hal0
    simp [List.mem_filter, hc0, this.2.1, this.2.2]
  unfold is_valid_bucket_name
  split_ifs with h1 h2 h3
  · exfalso
    simp [List.isEmpty_iff, hnil] at h1
    omega
  · exfalso
    simp at h2
    omega
  · exfalso
    have hia : pyIsAlnum (n.filter (fun c => !(c == 45) && !(c == 95))) = true := by
      simp only [pyIsAlnum, Bool.and_eq_true, Bool.not_eq_true', List.all_eq_true]
      constructor
      · have hp := isAlnumC_props c0 hal0
        simp [List.isEmpty_iff]
        exact ⟨c0, hc0, hp.2.1, hp.2.2⟩
      · intro c hcf
        simp [List.mem_filter] at hcf
        rcases hchars c hcf.1 with h | h | h
        · exact h
        · exact absurd h hcf.2.1
        · exact absurd h hcf.2.2
    simp [hia] at h3
  · rfl

/-- Characters produced by `pyLower` are never ASCII uppercase. -/
theorem pyLower_no_upper (s : PyStr) : ∀ c ∈ pyLower s, isUpperC c = false := by
  intro c hc
  simp [pyLower] at hc
  obtain ⟨c0, _, hc0⟩ := hc
  rw [← hc0]
  exact (toLowerC_classes c0).2.2.2.1

/-! ## C6.  Names consisting solely of dashes/underscores -/

/-- C6 counterexample: the claim says validation accepts a name made only of
`-`/`_` characters; the code rejects `"---"`, because stripping `-`/`_`
leaves the empty string and Python's `isalnum` is `False` on it. -/
theorem dash_underscore_only_name_accepted_cx :
    (is_valid_bucket_name (pyStr "---")).1 = false := by decide

/-- C6 amended: every candidate of length 3..50 consisting solely of `-` and
`_` characters is REJECTED by `is_valid_bucket_name` (with the
disallowed-characters message), because the stripped remainder is empty and
the empty string fails Python's `isalnum` check. -/
theorem dash_underscore_only_name_rejected (name : PyStr)
    (h3 : 3 ≤ name.length) (h50 : name.length ≤ 50)
    (hc : ∀ c ∈ name, c = 45 ∨ c = 95) :
    is_valid_bucket_name name =
      (false, "Only letters, numbers, dash and underscore allowed") := by
  have hnil : name ≠ [] := by
    intro hn
    rw [hn] at h3
    simp at h3
  have hfil : name.filter (fun c => !(c == 45) && !(c == 95)) = [] := by
    rw [List.filter_eq_nil_iff]
    intro c hcm
    rcases hc c hcm with h | h <;> simp [h]
  unfold is_valid_bucket_name
  split_ifs with h1 h2 h3
  · exfalso
    simp [List.isEmpty_iff, hnil] at h1
    omega
  · exfalso
    simp at h2
    omega
  · rfl
  · exfalso
    rw [hfil] at h3
    simp [pyIsAlnum] at h3

/-- C6 witness: `"___"` has length 3, only `-`/`_` characters, and is
rejected by the validator. -/
theorem dash_underscore_only_name_rejected_witness :
    3 ≤ (pyStr "___").length ∧ (pyStr "___").length ≤ 50 ∧
      (∀ c ∈ pyStr "___", c = 45 ∨ c = 95) ∧
      is_valid_bucket_name (pyStr "___") =
        (false, "Only letters, numbers, dash and underscore allowed") :=
  ⟨by decide, by decide, by decide,
    dash_underscore_only_name_rejected (pyStr "___") (by decide) (by decide) (by decide)⟩

/-! ## C1.  Deleting a non-empty bucket -/

/-- C1: when the bucket record exists and its directory contains at least one
file, `delete_bucket` answers `NonEmpty` with HTTP 400 and leaves the whole
state — record and directory with all its files — untouched. -/
theorem delete_nonempty_bucket_rejected (st : S3State) (name : PyStr) (d : BucketDir)
    (hrec : st.records.contains name = true)
    (hdir : lookup? st.dirs name = some d)
    (hne : d.files ≠ []) :
    delete_bucket st name = (DeleteRes.nonEmpty d.files.length, st) ∧
      deleteStatus (delete_bucket st name).1 = 400 := by
  have hE : d.files.isEmpty = false := by simp [List.isEmpty_iff, hne]
  have : delete_bucket st name = (DeleteRes.nonEmpty d.files.length, st) := by
    unfold delete_bucket
    rw [hrec]
    simp [hdir, hE]
  exact ⟨this, by rw [this]; rfl⟩

/-- C1 witness: a bucket `"b"` holding one file `"f.txt"` refuses deletion
with 400 and an unchanged state. -/
theorem delete_nonempty_bucket_rejected_witness :
    (S3State.mk [pyStr "b"] [(pyStr "b", BucketDir.mk [(pyStr "f.txt", pyStr "hi")] [])]).records.contains (pyStr "b") = true ∧
    lookup? (S3State.mk [pyStr "b"] [(pyStr "b", BucketDir.mk [(pyStr "f.txt", pyStr "hi")] [])]).dirs (pyStr "b") =
      some (BucketDir.mk [(pyStr "f.txt", pyStr "hi")] []) ∧
    delete_bucket (S3State.mk [pyStr "b"] [(pyStr "b", BucketDir.mk [(pyStr "f.txt", pyStr "hi")] [])]) (pyStr "b") =
      (DeleteRes.nonEmpty 1,
       S3State.mk [pyStr "b"] [(pyStr "b", BucketDir.mk [(pyStr "f.txt", pyStr "hi")] [])]) :=
  ⟨by decide, by decide,
    ((delete_nonempty_bucket_rejected
      (S3State.mk [pyStr "b"] [(pyStr "b", BucketDir.mk [(pyStr "f.txt", pyStr "hi")] [])])
      (pyStr "b") (BucketDir.mk [(pyStr "f.txt", pyStr "hi")] [])
      (by decide) (by decide) (by decide)).1)⟩

/-! ## C9.  Deleting a bucket whose directory holds only subdirectories -/

/-- C9: the emptiness check counts only regular files; with no files but at
least one subdirectory, the check passes, `rmdir` fails, the operation
answers `IOError` with HTTP 500 and the record (and whole state) is kept. -/
theorem delete_bucket_subdir_ioerror (st : S3State) (name : PyStr) (d : BucketDir)
    (hrec : st.records.contains name = true)
    (hdir : lookup? st.dirs name = some d)
    (hf : d.files = [])
    (hs : d.subdirs ≠ []) :
    delete_bucket st name = (DeleteRes.ioError, st) ∧
      deleteStatus (delete_bucket st name).1 = 500 ∧
      (delete_bucket st name).2.records = st.records := by
  have hS : d.subdirs.isEmpty = false := by simp [List.isEmpty_iff, hs]
  have : delete_bucket st name = (DeleteRes.ioError, st) := by
    unfold delete_bucket
    rw [hrec]
    simp [hdir, hf, hS]
  exact ⟨this, by rw [this]; rfl, by rw [this]⟩

/-- C9 witness: bucket `"b"` whose directory holds only the subdirectory
`"sub"` yields `IOError` (500) and keeps the record. -/
theorem delete_bucket_subdir_ioerror_witness :
    (S3State.mk [pyStr "b"] [(pyStr "b", BucketDir.mk [] [pyStr "sub"])]).records.contains (pyStr "b") = true ∧
    delete_bucket (S3State.mk [pyStr "b"] [(pyStr "b", BucketDir.mk [] [pyStr "sub"])]) (pyStr "b") =
      (DeleteRes.ioError, S3State.mk [pyStr "b"] [(pyStr "b", BucketDir.mk [] [pyStr "sub"])]) :=
  ⟨by decide,
    (delete_bucket_subdir_ioerror
      (S3State.mk [pyStr "b"] [(pyStr "b", BucketDir.mk [] [pyStr "sub"])])
      (pyStr "b") (BucketDir.mk [] [pyStr "sub"])
      (by decide) (by decide) (by decide) (by decide)).1⟩

/-! ## C10.  A fully rejected upload still creates the bucket directory -/

/-- C10: `upload_file` creates the bucket directory before processing any
file, so a request in which every file is rejected (here: one `.exe` file)
ends in the request-level 400 failure while the previously absent bucket
directory now exists. -/
theorem upload_rejected_request_creates_directory :
    lookup? (S3State.mk [pyStr "mybucket"] []).dirs (pyStr "mybucket") = none ∧
    upload_file (S3State.mk [pyStr "mybucket"] [])
        (pyStr "mybucket")
        [IncomingFile.mk (pyStr "virus.exe") (pyStr "payload") false]
        (pyStr "20260101_000000") =
      (UploadRes.noFiles ["File type not allowed"],
       S3State.mk [pyStr "mybucket"] [(pyStr "mybucket", BucketDir.mk [] [])]) ∧
    uploadStatus (UploadRes.noFiles ["File type not allowed"]) = 400 := by
  refine ⟨by decide, ?_, by decide⟩
  decide

/-! ## C7.  Human-formatted file sizes -/

/-- C7 counterexample: a 5-byte file is NOT listed as `"5 B"` — the `.1f`
format spec always prints one decimal place, so the code produces `"5.0 B"`. -/
theorem format_file_size_five_cx : format_file_size 5 ≠ "5 B" := by decide

/-- C7 amended: `format_file_size` scales by binary prefixes B → KB → MB → GB
with threshold 1024 and one decimal place (the value shown is the byte count
divided by `1024 ^ i`, rendered with one decimal), and a 5-byte file is listed
with `size_formatted` `"5.0 B"` (not `"5 B"`: the `.1f` spec keeps one
decimal). -/
theorem format_file_size_units (n : Nat) :
    (n = 0 → format_file_size n = "0 B") ∧
    (0 < n → n < 1024 → format_file_size n = oneDecimalRepr n 1 ++ " " ++ "B") ∧
    (1024 ≤ n → n < 1024 ^ 2 →
      format_file_size n = oneDecimalRepr n 1024 ++ " " ++ "KB") ∧
    (1024 ^ 2 ≤ n → n < 1024 ^ 3 →
      format_file_size n = oneDecimalRepr n (1024 ^ 2) ++ " " ++ "MB") ∧
    (1024 ^ 3 ≤ n →
      format_file_size n = oneDecimalRepr n (1024 ^ 3) ++ " " ++ "GB") ∧
    format_file_size 5 = "5.0 B" := by
  refine ⟨?_, ?_, ?_, ?_, ?_, by decide⟩
  · intro h
    rw [h]
    rfl
  · intro hpos hlt
    have hn0 : n ≠ 0 := by omega
    have c0 : ¬ (1024:Nat) ≤ n := by omega
    simp [format_file_size, hn0, fmtLoop, c0, sizeNames]
  · intro ha hb
    have hb' : n < 1048576 := by simpa using hb
    have hn0 : n ≠ 0 := by omega
    have c0 : (1024:Nat) ≤ n := ha
    have c1 : ¬ (1048576:Nat) ≤ n := by omega
    simp [format_file_size, hn0, fmtLoop, c0, c1, sizeNames]
  · intro ha hb
    have ha' : (1048576:Nat) ≤ n := by simpa using ha
    have hb' : n < 1073741824 := by simpa using hb
    have hn0 : n ≠ 0 := by omega
    have c0 : (1024:Nat) ≤ n := by omega
    have c1 : (1048576:Nat) ≤ n := ha'
    have c2 : ¬ (1073741824:Nat) ≤ n := by omega
    simp [format_file_size, hn0, fmtLoop, c0, c1, c2, sizeNames]
  · intro ha
    have ha' : (1073741824:Nat) ≤ n := by simpa using ha
    have hn0 : n ≠ 0 := by omega
    have c0 : (1024:Nat) ≤ n := by omega
    have c1 : (1048576:Nat) ≤ n := by omega
    have c2 : (1073741824:Nat) ≤ n := ha'
    simp [format_file_size, hn0, fmtLoop, c0, c1, c2, sizeNames]

/-- C7 witness: 1536 bytes land in the KB band and format as `"1.5 KB"`,
and the scenario's 5-byte file formats as `"5.0 B"`. -/
theorem format_file_size_units_witness :
    1024 ≤ 1536 ∧ 1536 < 1024 ^ 2 ∧
      format_file_size 1536 = oneDecimalRepr 1536 1024 ++ " " ++ "KB" ∧
      oneDecimalRepr 1536 1024 = "1.5" ∧
      format_file_size 5 = "5.0 B" :=
  ⟨by norm_num, by norm_num,
    (format_file_size_units 1536).2.2.1 (by norm_num) (by norm_num),
    by decide,
    (format_file_size_units 5).2.2.2.2.2⟩

/-! ## C2.  Invalid names are rejected without side effects -/

/-- C2: for every submitted name whose normalized (trimmed, lowercased) form
is shorter than 3 characters, longer than 50, or contains a character other
than letters/digits/`-`/`_`, `create_bucket` answers `Invalid` with HTTP 400
and neither the record store nor the filesystem changes.  (The ASCII
hypothesis marks the fragment of Python's Unicode string semantics the
embedding models.) -/
theorem create_invalid_name_rejected (st : S3State) (raw : PyStr)
    (hA : ∀ c ∈ raw, c < 128)
    (hbad : (pyLower (pyStrip raw)).length < 3 ∨ 50 < (pyLower (pyStrip raw)).length ∨
      ∃ c ∈ pyLower (pyStrip raw), isAlnumC c = false ∧ c ≠ 45 ∧ c ≠ 95) :
    (create_bucket st raw).1.isInvalid = true ∧
      createStatus (create_bucket st raw).1 = 400 ∧
      (create_bucket st raw).2 = st := by
  have hv : (is_valid_bucket_name (pyLower (pyStrip raw))).1 = false :=
    is_valid_fst_false _ hbad
  have h : create_bucket st raw =
      (CreateRes.invalid (is_valid_bucket_name (pyLower (pyStrip raw))).2, st) := by
    unfold create_bucket
    simp [hv]
  refine ⟨by rw [h]; rfl, by rw [h]; rfl, by rw [h]⟩

/-- C2 witness: `" AB "` normalizes to `"ab"` (length 2 < 3) and is rejected
with 400, leaving the empty state untouched. -/
theorem create_invalid_name_rejected_witness :
    (∀ c ∈ pyStr " AB ", c < 128) ∧
      (pyLower (pyStrip (pyStr " AB "))).length < 3 ∧
      (create_bucket (S3State.mk [] []) (pyStr " AB ")).1.isInvalid = true ∧
      createStatus (create_bucket (S3State.mk [] []) (pyStr " AB ")).1 = 400 ∧
      (create_bucket (S3State.mk [] []) (pyStr " AB ")).2 = S3State.mk [] [] := by
  refine ⟨by decide, by decide, ?_⟩
  have h := create_invalid_name_rejected (S3State.mk [] []) (pyStr " AB ")
    (by decide) (Or.inl (by decide))
  exact ⟨h.1, h.2.1, h.2.2⟩

/-! ## C3.  Valid names: create once, conflict on the duplicate -/

/-- C3 counterexample: the claim calls every 3-50 character string over
letters/digits/`-`/`_` valid, but a first create of `"___"` (3 characters,
all from the allowed alphabet) does NOT succeed with 201 — it is rejected
with `Invalid` / HTTP 400 and the store stays empty. -/
theorem create_punct_only_name_cx :
    (create_bucket (S3State.mk [] []) (pyStr "___")).1 =
        CreateRes.invalid "Only letters, numbers, dash and underscore allowed" ∧
      createStatus (create_bucket (S3State.mk [] []) (pyStr "___")).1 = 400 ∧
      (create_bucket (S3State.mk [] []) (pyStr "___")).2 = S3State.mk [] [] := by
  decide

/-- C3 amended: for every name of 3-50 characters over letters/digits/`-`/`_`
with AT LEAST ONE alphanumeric character (the amendment the `"___"`
counterexample forces), a first create succeeds with 201, stores the
trimmed lowercased name, and creates the directory; and any second create
whose trimmed lowercased name equals the stored name answers `Conflict`
with HTTP 409 and leaves the store unchanged. -/
theorem create_valid_then_duplicate_conflict (st : S3State) (raw raw2 : PyStr)
    (h3 : 3 ≤ raw.length) (h50 : raw.length ≤ 50)
    (hchars : ∀ c ∈ raw, isAlnumC c = true ∨ c = 45 ∨ c = 95)
    (halnum : ∃ c ∈ raw, isAlnumC c = true)
    (hfresh : st.records.contains (pyLower (pyStrip raw)) = false)
    (hsame : pyLower (pyStrip raw2) = pyLower (pyStrip raw)) :
    create_bucket st raw =
      (CreateRes.created (pyLower raw),
       S3State.mk (pyLower raw :: st.records) (mkdirIfMissing st.dirs (pyLower raw))) ∧
    createStatus (create_bucket st raw).1 = 201 ∧
    pyStrip raw = raw ∧
    (lookup? (create_bucket st raw).2.dirs (pyLower raw)).isSome = true ∧
    (create_bucket st raw).2.records.contains (pyLower raw) = true ∧
    create_bucket (create_bucket st raw).2 raw2 =
      (CreateRes.conflict, (create_bucket st raw).2) ∧
    createStatus CreateRes.conflict = 409 := by
  have hnospace : ∀ c ∈ raw, isSpaceC c = false := by
    intro c hc
    rcases hchars c hc with h | h | h
    · exact (isAlnumC_props c h).1
    · rw [h]
      rfl
    · rw [h]
      rfl
  have hstrip : pyStrip raw = raw := pyStrip_eq_self raw hnospace
  have hlen : (pyLower raw).length = raw.length := by simp [pyLower]
  have hchars' : ∀ c ∈ pyLower raw, isAlnumC c = true ∨ c = 45 ∨ c = 95 := by
    intro c hc
    simp only [pyLower, List.mem_map] at hc
    obtain ⟨c0, hc0, hc0e⟩ := hc
    rcases hchars c0 hc0 with h | h | h
    · exact Or.inl (hc0e ▸ (toLowerC_classes c0).1 h)
    · refine Or.inr (Or.inl ?_)
      rw [← hc0e, h]
      exact (toLowerC_classes 45).2.1 rfl
    · refine Or.inr (Or.inr ?_)
      rw [← hc0e, h]
      exact (toLowerC_classes 95).2.2.1 rfl
  have halnum' : ∃ c ∈ pyLower raw, isAlnumC c = true := by
    obtain ⟨c0, hc0, hal⟩ := halnum
    exact ⟨toLowerC c0, by simp [pyLower]; exact ⟨c0, hc0, rfl⟩, (toLowerC_classes c0).1 hal⟩
  have hv : is_valid_bucket_name (pyLower raw) = (true, "Valid name") :=
    is_valid_fst_true (pyLower raw) (by omega) (by omega) hchars' halnum'
  rw [hstrip] at hfresh
  have hfresh' : pyLower raw ∉ st.records := by simpa using hfresh
  have hfirst : create_bucket st raw =
      (CreateRes.created (pyLower raw),
       S3State.mk (pyLower raw :: st.records) (mkdirIfMissing st.dirs (pyLower raw))) := by
    unfold create_bucket
    rw [hstrip]
    simp [hv, hfresh']
  have hsecond : create_bucket
      (S3State.mk (pyLower raw :: st.records) (mkdirIfMissing st.dirs (pyLower raw))) raw2 =
      (CreateRes.conflict,
       S3State.mk (pyLower raw :: st.records) (mkdirIfMissing st.dirs (pyLower raw))) := by
    unfold create_bucket
    rw [hsame, hstrip]
    simp [hv]
  refine ⟨hfirst, by rw [hfirst]; rfl, hstrip, ?_, ?_, ?_, rfl⟩
  · rw [hfirst]
    exact lookup?_mkdirIfMissing_isSome st.dirs (pyLower raw)
  · rw [hfirst]
    simp
  · rw [hfirst]
    exact hsecond

/-- C3 witness: `"My-Data1"` creates as `"my-data1"` with 201 and a second
create of `"MY-DATA1"` (same normalized name) answers 409. -/
theorem create_valid_then_duplicate_conflict_witness :
    3 ≤ (pyStr "My-Data1").length ∧ (pyStr "My-Data1").length ≤ 50 ∧
      (∀ c ∈ pyStr "My-Data1", isAlnumC c = true ∨ c = 45 ∨ c = 95) ∧
      (∃ c ∈ pyStr "My-Data1", isAlnumC c = true) ∧
      (S3State.mk [] []).records.contains (pyLower (pyStrip (pyStr "My-Data1"))) = false ∧
      pyLower (pyStrip (pyStr "MY-DATA1")) = pyLower (pyStrip (pyStr "My-Data1")) ∧
      create_bucket (S3State.mk [] []) (pyStr "My-Data1") =
        (CreateRes.created (pyLower (pyStr "My-Data1")),
         S3State.mk [pyLower (pyStr "My-Data1")]
           (mkdirIfMissing [] (pyLower (pyStr "My-Data1")))) ∧
      create_bucket (create_bucket (S3State.mk [] []) (pyStr "My-Data1")).2 (pyStr "MY-DATA1") =
        (CreateRes.conflict, (create_bucket (S3State.mk [] []) (pyStr "My-Data1")).2) := by
  have h := create_valid_then_duplicate_conflict (S3State.mk [] [])
    (pyStr "My-Data1") (pyStr "MY-DATA1")
    (by decide) (by decide) (by decide) (by decide) (by decide) (by decide)
  exact ⟨by decide, by decide, by decide, by decide, by decide, by decide, h.1, h.2.2.2.2.2.1⟩

/-! ## C8.  Create normalizes, lookups do not -/

/-- C8: `create_bucket` stores the trimmed lowercased name, while
`get_bucket`, `delete_bucket` and `upload_file` look the requested name up
verbatim; hence creating a name containing an ASCII uppercase letter and
requesting it with the original spelling answers `NotFound`, while the
lowercase spelling resolves the bucket.  (Assumes every already-stored record
name is lowercase, the invariant create maintains, and an ASCII name —
the modeled fragment.) -/
theorem create_uppercase_lookup_notfound (st : S3State) (raw : PyStr)
    (fs : List IncomingFile) (now : PyStr)
    (hA : ∀ c ∈ raw, c < 128)
    (hup : ∃ c ∈ raw, isUpperC c = true)
    (hrecs : ∀ r ∈ st.records, ∀ c ∈ r, isUpperC c = false)
    (hvalid : (is_valid_bucket_name (pyLower (pyStrip raw))).1 = true)
    (hfresh : st.records.contains (pyLower (pyStrip raw)) = false) :
    (create_bucket st raw).1 = CreateRes.created (pyLower (pyStrip raw)) ∧
      get_bucket (create_bucket st raw).2 raw = GetRes.notFound ∧
      get_bucket (create_bucket st raw).2 (pyLower (pyStrip raw)) ≠ GetRes.notFound ∧
      delete_bucket (create_bucket st raw).2 raw = (DeleteRes.notFound, (create_bucket st raw).2) ∧
      upload_file (create_bucket st raw).2 raw fs now =
        (UploadRes.notFound, (create_bucket st raw).2) := by
  have hfresh' : pyLower (pyStrip raw) ∉ st.records := by simpa using hfresh
  have hfirst : create_bucket st raw =
      (CreateRes.created (pyLower (pyStrip raw)),
       S3State.mk (pyLower (pyStrip raw) :: st.records)
         (mkdirIfMissing st.dirs (pyLower (pyStrip raw)))) := by
    unfold create_bucket
    simp [hvalid, hfresh']
  have hraw_ne : raw ≠ pyLower (pyStrip raw) := by
    obtain ⟨c, hc, hcu⟩ := hup
    intro he
    have := pyLower_no_upper (pyStrip raw) c (he ▸ hc)
    rw [this] at hcu
    exact absurd hcu (by simp)
  have hraw_notin : raw ∉ st.records := by
    intro hin
    obtain ⟨c, hc, hcu⟩ := hup
    have := hrecs raw hin c hc
    rw [this] at hcu
    exact absurd hcu (by simp)
  have hcontains : (pyLower (pyStrip raw) :: st.records).contains raw = false := by
    rw [Bool.eq_false_iff]
    intro hc
    have hmem : raw ∈ pyLower (pyStrip raw) :: st.records := by simpa using hc
    rcases List.mem_cons.mp hmem with he | hin
    · exact hraw_ne he
    · exact hraw_notin hin
  refine ⟨by rw [hfirst], ?_, ?_, ?_, ?_⟩
  · rw [hfirst]
    unfold get_bucket
    simp only [hcontains]
    rfl
  · rw [hfirst]
    unfold get_bucket
    have : (pyLower (pyStrip raw) :: st.records).contains (pyLower (pyStrip raw)) = true := by
      simp
    simp only [this, Bool.not_true, Bool.false_eq_true, if_false]
    cases lookup? (mkdirIfMissing st.dirs (pyLower (pyStrip raw))) (pyLower (pyStrip raw)) with
    | none => simp
    | some d => simp
  · rw [hfirst]
    unfold delete_bucket
    simp only [hcontains]
    rfl
  · rw [hfirst]
    unfold upload_file
    simp only [hcontains]
    rfl

/-- C8 witness: creating `"MyBucket"` stores `"mybucket"`; `GET /buckets/MyBucket`
is 404 while the lowercase spelling resolves. -/
theorem create_uppercase_lookup_notfound_witness :
    (∀ c ∈ pyStr "MyBucket", c < 128) ∧
      (∃ c ∈ pyStr "MyBucket", isUpperC c = true) ∧
      (is_valid_bucket_name (pyLower (pyStrip (pyStr "MyBucket")))).1 = true ∧
      (create_bucket (S3State.mk [] []) (pyStr "MyBucket")).1 =
        CreateRes.created (pyLower (pyStrip (pyStr "MyBucket"))) ∧
      get_bucket (create_bucket (S3State.mk [] []) (pyStr "MyBucket")).2 (pyStr "MyBucket") =
        GetRes.notFound ∧
      get_bucket (create_bucket (S3State.mk [] []) (pyStr "MyBucket")).2
        (pyLower (pyStrip (pyStr "MyBucket"))) ≠ GetRes.notFound := by
  have h := create_uppercase_lookup_notfound (S3State.mk [] []) (pyStr "MyBucket") [] (pyStr "")
    (by decide) (by decide) (by intro r hr; simp at hr) (by decide) (by decide)
  exact ⟨by decide, by decide, by decide, h.1, h.2.1, h.2.2.1⟩

/-! ## C4.  Collision renaming preserves the original file -/

/-- `rsplitDot` really splits at a dot: the input is `before ++ [46] ++ after`. -/
theorem rsplitDot_eq (l : PyStr) (a b : PyStr) (h : rsplitDot l = some (a, b)) :
    l = a ++ 46 :: b := by
  induction l generalizing a b with
  | nil => simp [rsplitDot] at h
  | cons c cs ih =>
    rw [rsplitDot] at h
    cases hr : rsplitDot cs with
    | some ab =>
      obtain ⟨a0, b0⟩ := ab
      rw [hr] at h
      simp at h
      rw [← h.1, ← h.2, ih a0 b0 hr]
      simp
    | none =>
      rw [hr] at h
      by_cases hc : c = 46
      · simp [hc] at h
        obtain ⟨h1, h2⟩ := h
        subst h1
        rw [hc, h2]
        simp
      · simp [hc] at h

/-- The timestamp-suffixed name is strictly longer than the colliding name
(the rename inserts `_` plus the non-empty timestamp), hence distinct. -/
theorem renameWithTimestamp_ne (fn ts : PyStr) (hts : ts ≠ []) :
    renameWithTimestamp fn ts ≠ fn := by
  have hlen : fn.length < (renameWithTimestamp fn ts).length := by
    unfold renameWithTimestamp
    cases hr : rsplitDot fn with
    | none => simp
    | some ab =>
      obtain ⟨a, b⟩ := ab
      have hfn := rsplitDot_eq fn a b hr
      have hts' : 0 < ts.length := List.length_pos.mpr hts
      by_cases hb : b.isEmpty
      · have hb' : b = [] := by simpa [List.isEmpty_iff] using hb
        subst hb'
        rw [hfn]
        simp
        omega
      · have hb' : b ≠ [] := by simpa [List.isEmpty_iff] using hb
        rw [hfn]
        simp [hb]
        omega
  intro he
  rw [he] at hlen
  omega

/-- C4: when the sanitized filename of an upload equals the name of a file
already present in the bucket directory, the upload is stored under the
distinct timestamp-suffixed name and the pre-existing file's bytes are
unchanged — both at the level of the per-file loop body (any request) and
end-to-end for a single-file request. -/
theorem upload_collision_preserves_original (st : S3State) (bname : PyStr)
    (d : BucketDir) (orig origContent : PyStr) (f : IncomingFile) (now : PyStr)
    (hrec : st.records.contains bname = true)
    (hdir : lookup? st.dirs bname = some d)
    (hex : lookup? d.files orig = some origContent)
    (hnm : f.filename ≠ [])
    (hallow : allowed_file f.filename = true)
    (hsan : secure_filename f.filename = orig)
    (horig : orig ≠ [])
    (hsave : f.saveFails = false)
    (hnow : now ≠ []) :
    renameWithTimestamp orig now ≠ orig ∧
      (∀ acc : UpAcc, acc.dir = d →
        processOne now acc f =
          UpAcc.mk (BucketDir.mk (upsert d.files (renameWithTimestamp orig now) f.content) d.subdirs)
            (acc.uploaded ++ [get_file_info (renameWithTimestamp orig now) f.content])
            acc.errors) ∧
      upload_file st bname [f] now =
        (UploadRes.ok [get_file_info (renameWithTimestamp orig now) f.content] [],
         S3State.mk st.records
           (upsert st.dirs bname
             (BucketDir.mk (upsert d.files (renameWithTimestamp orig now) f.content) d.subdirs))) ∧
      lookup? (upsert d.files (renameWithTimestamp orig now) f.content) orig =
        some origContent := by
  have hne : renameWithTimestamp orig now ≠ orig := renameWithTimestamp_ne orig now hnow
  have hfe : f.filename.isEmpty = false := by simpa [List.isEmpty_iff] using hnm
  have hoe : orig.isEmpty = false := by simpa [List.isEmpty_iff] using horig
  have hstep : ∀ acc : UpAcc, acc.dir = d →
      processOne now acc f =
        UpAcc.mk (BucketDir.mk (upsert d.files (renameWithTimestamp orig now) f.content) d.subdirs)
          (acc.uploaded ++ [get_file_info (renameWithTimestamp orig now) f.content])
          acc.errors := by
    intro acc hacc
    unfold processOne
    rw [hfe, hallow, hsan]
    simp [hoe, hacc, hex, hsave]
  refine ⟨hne, hstep, ?_, ?_⟩
  · have hstep' := hstep (UpAcc.mk d [] []) rfl
    unfold upload_file
    rw [hrec, hdir]
    simp [hfe, hstep']
  · exact (lookup?_upsert_ne d.files (renameWithTimestamp orig now) orig f.content
      (Ne.symm hne)).trans hex

/-- C4 witness: uploading `a.txt` (content `"new"`) into a bucket already
holding `a.txt` (content `"old"`) stores the timestamp-suffixed name and the
old bytes remain readable under `a.txt`. -/
theorem upload_collision_preserves_original_witness :
    (S3State.mk [pyStr "b"] [(pyStr "b", BucketDir.mk [(pyStr "a.txt", pyStr "old")] [])]).records.contains (pyStr "b") = true ∧
      secure_filename (pyStr "a.txt") = pyStr "a.txt" ∧
      allowed_file (pyStr "a.txt") = true ∧
      renameWithTimestamp (pyStr "a.txt") (pyStr "20260101_000000") ≠ pyStr "a.txt" ∧
      lookup? (upsert (BucketDir.mk [(pyStr "a.txt", pyStr "old")] []).files
          (renameWithTimestamp (pyStr "a.txt") (pyStr "20260101_000000")) (pyStr "new"))
        (pyStr "a.txt") = some (pyStr "old") := by
  have h := upload_collision_preserves_original
    (S3State.mk [pyStr "b"] [(pyStr "b", BucketDir.mk [(pyStr "a.txt", pyStr "old")] [])])
    (pyStr "b") (BucketDir.mk [(pyStr "a.txt", pyStr "old")] [])
    (pyStr "a.txt") (pyStr "old")
    (IncomingFile.mk (pyStr "a.txt") (pyStr "new") false)
    (pyStr "20260101_000000")
    (by decide) (by decide) (by decide) (by decide) (by decide) (by decide) (by decide)
    (by decide) (by decide)
  exact ⟨by decide, by decide, by decide, h.1, h.2.2.2⟩

/-! ## C5.  The partial-failure contract of upload -/

theorem isEmpty_append_singleton {α : Type} (l : List α) (x : α) :
    (l ++ [x]).isEmpty = false := by
  cases l <;> rfl

theorem lookup?_upsert_isSome {α : Type} (l : List (PyStr × α)) (k k' : PyStr) (v : α)
    (h : (lookup? l k').isSome = true) : (lookup? (upsert l k v) k').isSome = true := by
  by_cases he : k' = k
  · subst he
    rw [lookup?_upsert_self]
    rfl
  · rw [lookup?_upsert_ne l k k' v he]
    exact h

/-- One loop step leaves `uploaded_files` empty exactly when it was empty and
the processed file failed. -/
theorem processOne_uploaded_isEmpty (now : PyStr) (acc : UpAcc) (f : IncomingFile) :
    (processOne now acc f).uploaded.isEmpty = (acc.uploaded.isEmpty && fileFails f) := by
  by_cases h1 : f.filename.isEmpty = true
  · simp [processOne, fileFails, h1]
  · by_cases h2 : allowed_file f.filename = true
    · by_cases h3 : (secure_filename f.filename).isEmpty = true
      · simp [processOne, fileFails, h1, h2, h3]
      · by_cases h4 : f.saveFails = true
        · simp [processOne, fileFails, h1, h2, h3, h4]
        · simp [processOne, fileFails, h1, h2, h3, h4, isEmpty_append_singleton]
    · simp [processOne, fileFails, h1, h2]

/-- After the whole loop, `uploaded_files` is empty exactly when it started
empty and every file failed. -/
theorem foldl_uploaded_isEmpty (now : PyStr) (files : List IncomingFile) :
    ∀ acc : UpAcc, ((files.foldl (processOne now) acc).uploaded).isEmpty =
      (acc.uploaded.isEmpty && files.all fileFails) := by
  induction files with
  | nil => intro acc; simp
  | cons f fs ih =>
    intro acc
    rw [List.foldl_cons, ih (processOne now acc f), processOne_uploaded_isEmpty]
    simp [List.all_cons, Bool.and_assoc]

/-- One loop step grows `uploaded_files` by one entry exactly when the file
did not fail. -/
theorem processOne_uploaded_length (now : PyStr) (acc : UpAcc) (f : IncomingFile) :
    (processOne now acc f).uploaded.length =
      acc.uploaded.length + (if fileFails f = true then 0 else 1) := by
  by_cases h1 : f.filename.isEmpty = true
  · simp [processOne, fileFails, h1]
  · by_cases h2 : allowed_file f.filename = true
    · by_cases h3 : (secure_filename f.filename).isEmpty = true
      · simp [processOne, fileFails, h1, h2, h3]
      · by_cases h4 : f.saveFails = true
        · simp [processOne, fileFails, h1, h2, h3, h4]
        · simp [processOne, fileFails, h1, h2, h3, h4]
    · simp [processOne, fileFails, h1, h2]

/-- After the whole loop, `uploaded_files` holds one entry per non-failing
file. -/
theorem foldl_uploaded_length (now : PyStr) (files : List IncomingFile) :
    ∀ acc : UpAcc, (files.foldl (processOne now) acc).uploaded.length =
      acc.uploaded.length + (files.filter (fun f => !fileFails f)).length := by
  induction files with
  | nil => intro acc; simp
  | cons f fs ih =>
    intro acc
    rw [List.foldl_cons, ih (processOne now acc f), processOne_uploaded_length]
    by_cases h : fileFails f = true
    · simp [h, List.filter_cons]
    · simp [h, List.filter_cons]
      omega

/-- One loop step appends one error message exactly when the file has a
non-empty submitted name and fails (empty names are skipped silently). -/
theorem processOne_errors_length (now : PyStr) (acc : UpAcc) (f : IncomingFile) :
    (processOne now acc f).errors.length =
      acc.errors.length +
        (if f.filename.isEmpty = false ∧ fileFails f = true then 1 else 0) := by
  by_cases h1 : f.filename.isEmpty = true
  · simp [processOne, fileFails, h1]
  · by_cases h2 : allowed_file f.filename = true
    · by_cases h3 : (secure_filename f.filename).isEmpty = true
      · simp [processOne, fileFails, h1, h2, h3]
      · by_cases h4 : f.saveFails = true
        · simp [processOne, fileFails, h1, h2, h3, h4]
        · simp [processOne, fileFails, h1, h2, h3, h4]
    · simp [processOne, fileFails, h1, h2]

/-- After the whole loop, `errors` holds one message per failing file with a
non-empty submitted name. -/
theorem foldl_errors_length (now : PyStr) (files : List IncomingFile) :
    ∀ acc : UpAcc, (files.foldl (processOne now) acc).errors.length =
      acc.errors.length +
        (files.filter (fun f => !f.filename.isEmpty && fileFails f)).length := by
  induction files with
  | nil => intro acc; simp
  | cons f fs ih =>
    intro acc
    rw [List.foldl_cons, ih (processOne now acc f), processOne_errors_length]
    by_cases h1 : f.filename.isEmpty = true
    · simp [h1, List.filter_cons]
    · by_cases h2 : fileFails f = true
      · simp [h1, h2, List.filter_cons]
        omega
      · simp [h1, h2, List.filter_cons]

/-- Every `uploaded_files` entry names a file present in the final directory
and carries `size_formatted` derived from its recorded size; preserved by one
loop step. -/
theorem processOne_meta_step (now : PyStr) (acc : UpAcc) (f : IncomingFile)
    (h : ∀ i ∈ acc.uploaded, (lookup? acc.dir.files i.name).isSome = true ∧
      i.size_formatted = format_file_size i.size) :
    ∀ i ∈ (processOne now acc f).uploaded,
      (lookup? (processOne now acc f).dir.files i.name).isSome = true ∧
        i.size_formatted = format_file_size i.size := by
  intro i hi
  by_cases h1 : f.filename.isEmpty = true
  · simp [processOne, h1] at hi ⊢
    exact h i hi
  · by_cases h2 : allowed_file f.filename = true
    · by_cases h3 : (secure_filename f.filename).isEmpty = true
      · simp [processOne, h1, h2, h3] at hi ⊢
        exact h i hi
      · by_cases h4 : f.saveFails = true
        · simp [processOne, h1, h2, h3, h4] at hi ⊢
          exact h i hi
        · by_cases h5 : (lookup? acc.dir.files (secure_filename f.filename)).isSome = true
          · simp only [processOne, h1, h2, h3, h4, h5, Bool.not_eq_true, if_false,
              Bool.not_true, if_true, eq_self_iff_true] at hi ⊢
            simp [h1, h2, h3, h4, h5] at hi ⊢
            rcases hi with hiold | hinew
            · exact ⟨lookup?_upsert_isSome _ _ _ _ (h i hiold).1, (h i hiold).2⟩
            · subst hinew
              simp [get_file_info, lookup?_upsert_self]
          · simp only [processOne] at hi ⊢
            simp [h1, h2, h3, h4, h5] at hi ⊢
            rcases hi with hiold | hinew
            · exact ⟨lookup?_upsert_isSome _ _ _ _ (h i hiold).1, (h i hiold).2⟩
            · subst hinew
              simp [get_file_info, lookup?_upsert_self]
    · simp [processOne, h1, h2] at hi ⊢
      exact h i hi

/-- The loop-wide version of `processOne_meta_step`. -/
theorem foldl_uploaded_meta (now : PyStr) (files : List IncomingFile) :
    ∀ acc : UpAcc,
      (∀ i ∈ acc.uploaded, (lookup? acc.dir.files i.name).isSome = true ∧
        i.size_formatted = format_file_size i.size) →
      ∀ i ∈ (files.foldl (processOne now) acc).uploaded,
        (lookup? ((files.foldl (processOne now) acc).dir.files) i.name).isSome = true ∧
          i.size_formatted = format_file_size i.size := by
  induction files with
  | nil =>
    intro acc h
    simpa using h
  | cons f fs ih =>
    intro acc h
    rw [List.foldl_cons]
    exact ih (processOne now acc f) (processOne_meta_step now acc f h)

/-- `upload_file` on an existing bucket with a usable file list reduces to
the fold over `processOne` followed by the success/failure choice on
`uploaded_files`. -/
theorem upload_file_eq (st : S3State) (bname : PyStr) (files : List IncomingFile)
    (now : PyStr)
    (hrec : st.records.contains bname = true)
    (hfiles_ne : files.isEmpty = false)
    (hall_empty : files.all (fun f => f.filename.isEmpty) = false) :
    upload_file st bname files now =
      (if !(List.foldl (processOne now)
          (UpAcc.mk ((lookup? st.dirs bname).getD (BucketDir.mk [] [])) [] []) files).uploaded.isEmpty
       then
        (UploadRes.ok
          (List.foldl (processOne now)
            (UpAcc.mk ((lookup? st.dirs bname).getD (BucketDir.mk [] [])) [] []) files).uploaded
          (List.foldl (processOne now)
            (UpAcc.mk ((lookup? st.dirs bname).getD (BucketDir.mk [] [])) [] []) files).errors,
         S3State.mk st.records
           (upsert st.dirs bname
             (List.foldl (processOne now)
               (UpAcc.mk ((lookup? st.dirs bname).getD (BucketDir.mk [] [])) [] []) files).dir))
       else
        (UploadRes.noFiles
          (List.foldl (processOne now)
            (UpAcc.mk ((lookup? st.dirs bname).getD (BucketDir.mk [] [])) [] []) files).errors,
         S3State.mk st.records
           (upsert st.dirs bname
             (List.foldl (processOne now)
               (UpAcc.mk ((lookup? st.dirs bname).getD (BucketDir.mk [] [])) [] []) files).dir))) := by
  unfold upload_file
  rw [hrec, hfiles_ne, hall_empty]
  simp

/-- C5: for an upload request to an existing bucket with at least one
non-empty-named incoming file: the request fails (`NoFilesUploaded`, 400,
success=false) iff EVERY file failed (empty name, disallowed/missing
extension, empty sanitized name, or write error); when at least one file is
stored the response has success=true, lists exactly one entry per stored file
— each naming a file present in the bucket directory afterwards, with
`size_formatted` derived from its size — and carries one per-file error per
failing non-empty-named file; and a file with a disallowed extension is never
written to disk (its loop step only appends an error). -/
theorem upload_per_file_error_contract (st : S3State) (bname : PyStr)
    (files : List IncomingFile) (now : PyStr)
    (hrec : st.records.contains bname = true)
    (hne : ∃ f ∈ files, f.filename ≠ []) :
    ((∃ errs, (upload_file st bname files now).1 = UploadRes.noFiles errs) ↔
        files.all fileFails = true) ∧
      (∀ errs, (upload_file st bname files now).1 = UploadRes.noFiles errs →
        uploadStatus (upload_file st bname files now).1 = 400 ∧
          uploadSuccess (upload_file st bname files now).1 = false) ∧
      (∀ ups errs, (upload_file st bname files now).1 = UploadRes.ok ups errs →
        uploadSuccess (upload_file st bname files now).1 = true ∧
          ups ≠ [] ∧
          ups.length = (files.filter (fun f => !fileFails f)).length ∧
          errs.length = (files.filter (fun f => !f.filename.isEmpty && fileFails f)).length ∧
          ∀ i ∈ ups,
            (lookup? ((lookup? (upload_file st bname files now).2.dirs bname).getD
                (BucketDir.mk [] [])).files i.name).isSome = true ∧
              i.size_formatted = format_file_size i.size) ∧
      (∀ acc f, f.filename ≠ [] → allowed_file f.filename = false →
        processOne now acc f =
          UpAcc.mk acc.dir acc.uploaded (acc.errors ++ ["File type not allowed"])) := by
  obtain ⟨f0, hf0, hf0ne⟩ := hne
  have hfiles_ne : files.isEmpty = false := by
    cases files with
    | nil => simp at hf0
    | cons a as => rfl
  have hall_empty : files.all (fun f => f.filename.isEmpty) = false := by
    rw [Bool.eq_false_iff]
    intro hall
    rw [List.all_eq_true] at hall
    have := hall f0 hf0
    simp [List.isEmpty_iff] at this
    exact hf0ne this
  have hdisallowed : ∀ (acc : UpAcc) (f : IncomingFile), f.filename ≠ [] →
      allowed_file f.filename = false →
      processOne now acc f =
        UpAcc.mk acc.dir acc.uploaded (acc.errors ++ ["File type not allowed"]) := by
    intro acc f hfn hfa
    have hfe : f.filename.isEmpty = false := by simpa [List.isEmpty_iff] using hfn
    simp only [processOne]
    rw [hfe, hfa]
    simp
  set d0 := (lookup? st.dirs bname).getD (BucketDir.mk [] []) with hd0
  set r := List.foldl (processOne now) (UpAcc.mk d0 [] []) files with hr
  have hm := upload_file_eq st bname files now hrec hfiles_ne hall_empty
  rw [← hd0, ← hr] at hm
  have hempty_iff : r.uploaded.isEmpty = files.all fileFails := by
    rw [hr, foldl_uploaded_isEmpty]
    rfl
  by_cases hcase : r.uploaded.isEmpty = true
  · have hres : upload_file st bname files now =
        (UploadRes.noFiles r.errors, S3State.mk st.records (upsert st.dirs bname r.dir)) := by
      rw [hm, hcase]
      rfl
    have hallf : files.all fileFails = true := by rw [← hempty_iff]; exact hcase
    refine ⟨⟨fun _ => hallf, fun _ => ⟨r.errors, by rw [hres]⟩⟩, ?_, ?_, hdisallowed⟩
    · intro errs herrs
      rw [hres]
      exact ⟨rfl, rfl⟩
    · intro ups errs hok
      rw [hres] at hok
      simp at hok
  · have hcase' : r.uploaded.isEmpty = false := by
      rw [Bool.eq_false_iff]
      exact hcase
    have hres : upload_file st bname files now =
        (UploadRes.ok r.uploaded r.errors,
         S3State.mk st.records (upsert st.dirs bname r.dir)) := by
      rw [hm, hcase']
      rfl
    have hallf : files.all fileFails = false := by rw [← hempty_iff]; exact hcase'
    refine ⟨⟨?_, ?_⟩, ?_, ?_, hdisallowed⟩
    · intro hex
      obtain ⟨errs, herrs⟩ := hex
      rw [hres] at herrs
      simp at herrs
    · intro hall
      rw [hall] at hallf
      exact absurd hallf (by simp)
    · intro errs herrs
      rw [hres] at herrs
      simp at herrs
    · intro ups errs hok
      rw [hres] at hok
      have hok' : UploadRes.ok r.uploaded r.errors = UploadRes.ok ups errs := hok
      injection hok' with h1 h2
      subst h1
      subst h2
      refine ⟨by rw [hres]; rfl, ?_, ?_, ?_, ?_⟩
      · intro hnil
        rw [hnil] at hcase'
        simp at hcase'
      · have hlen := foldl_uploaded_length now files (UpAcc.mk d0 [] [])
        rw [← hr] at hlen
        simpa using hlen
      · have hlen := foldl_errors_length now files (UpAcc.mk d0 [] [])
        rw [← hr] at hlen
        simpa using hlen
      · intro i hi
        have hmeta := foldl_uploaded_meta now files (UpAcc.mk d0 [] [])
          (by intro i hi; simp at hi)
        rw [← hr] at hmeta
        have h2 := hmeta i hi
        rw [hres]
        simpa [lookup?_upsert_self] using h2

/-- C5 witness: bucket `"b"` exists; uploading `a.txt` (stored) together with
`b.exe` (rejected) satisfies the whole partial-failure contract at this
concrete request. -/
theorem upload_per_file_error_contract_witness :
    (S3State.mk [pyStr "b"] []).records.contains (pyStr "b") = true ∧
    (∃ f ∈ [IncomingFile.mk (pyStr "a.txt") (pyStr "hello") false,
            IncomingFile.mk (pyStr "b.exe") (pyStr "x") false], f.filename ≠ []) ∧
    (((∃ errs, (upload_file (S3State.mk [pyStr "b"] []) (pyStr "b")
          [IncomingFile.mk (pyStr "a.txt") (pyStr "hello") false,
           IncomingFile.mk (pyStr "b.exe") (pyStr "x") false] (pyStr "20260101_000000")).1 =
            UploadRes.noFiles errs) ↔
        [IncomingFile.mk (pyStr "a.txt") (pyStr "hello") false,
         IncomingFile.mk (pyStr "b.exe") (pyStr "x") false].all fileFails = true) ∧
      (∀ errs, (upload_file (S3State.mk [pyStr "b"] []) (pyStr "b")
          [IncomingFile.mk (pyStr "a.txt") (pyStr "hello") false,
           IncomingFile.mk (pyStr "b.exe") (pyStr "x") false] (pyStr "20260101_000000")).1 =
            UploadRes.noFiles errs →
        uploadStatus (upload_file (S3State.mk [pyStr "b"] []) (pyStr "b")
          [IncomingFile.mk (pyStr "a.txt") (pyStr "hello") false,
           IncomingFile.mk (pyStr "b.exe") (pyStr "x") false] (pyStr "20260101_000000")).1 = 400 ∧
          uploadSuccess (upload_file (S3State.mk [pyStr "b"] []) (pyStr "b")
            [IncomingFile.mk (pyStr "a.txt") (pyStr "hello") false,
             IncomingFile.mk (pyStr "b.exe") (pyStr "x") false] (pyStr "20260101_000000")).1 = false) ∧
      (∀ ups errs, (upload_file (S3State.mk [pyStr "b"] []) (pyStr "b")
          [IncomingFile.mk (pyStr "a.txt") (pyStr "hello") false,
           IncomingFile.mk (pyStr "b.exe") (pyStr "x") false] (pyStr "20260101_000000")).1 =
            UploadRes.ok ups errs →
        uploadSuccess (upload_file (S3State.mk [pyStr "b"] []) (pyStr "b")
          [IncomingFile.mk (pyStr "a.txt") (pyStr "hello") false,
           IncomingFile.mk (pyStr "b.exe") (pyStr "x") false] (pyStr "20260101_000000")).1 = true ∧
          ups ≠ [] ∧
          ups.length = ([IncomingFile.mk (pyStr "a.txt") (pyStr "hello") false,
            IncomingFile.mk (pyStr "b.exe") (pyStr "x") false].filter
              (fun f => !fileFails f)).length ∧
          errs.length = ([IncomingFile.mk (pyStr "a.txt") (pyStr "hello") false,
            IncomingFile.mk (pyStr "b.exe") (pyStr "x") false].filter
              (fun f => !f.filename.isEmpty && fileFails f)).length ∧
          ∀ i ∈ ups,
            (lookup? ((lookup? (upload_file (S3State.mk [pyStr "b"] []) (pyStr "b")
                [IncomingFile.mk (pyStr "a.txt") (pyStr "hello") false,
                 IncomingFile.mk (pyStr "b.exe") (pyStr "x") false]
                (pyStr "20260101_000000")).2.dirs (pyStr "b")).getD
                (BucketDir.mk [] [])).files i.name).isSome = true ∧
              i.size_formatted = format_file_size i.size) ∧
      (∀ acc f, f.filename ≠ [] → allowed_file f.filename = false →
        processOne (pyStr "20260101_000000") acc f =
          UpAcc.mk acc.dir acc.uploaded (acc.errors ++ ["File type not allowed"]))) :=
  ⟨by decide,
   ⟨IncomingFile.mk (pyStr "a.txt") (pyStr "hello") false, by decide, by decide⟩,
   upload_per_file_error_contract (S3State.mk [pyStr "b"] []) (pyStr "b")
     [IncomingFile.mk (pyStr "a.txt") (pyStr "hello") false,
      IncomingFile.mk (pyStr "b.exe") (pyStr "x") false] (pyStr "20260101_000000")
     (by decide)
     ⟨IncomingFile.mk (pyStr "a.txt") (pyStr "hello") false, by decide, by decide⟩⟩


end SimpleStorage
